import Mathlib

/-!
Verification of the MuchFun audio/pattern actuator controller
(`src/muchfun.py`). The signal-processing and arbitration pipeline is
embedded shallowly: pure numeric code over Python floats is modelled over
`ℚ` where only field arithmetic, `min`/`max` and comparisons occur, and
over `ℝ` where transcendental functions (`sin`, `sqrt`, FFT magnitudes)
occur. Stateful attributes (`self._audio_velocity`, `last_send_time`,
`_last_sent_intensity`) become explicit state passed in and out.
-/

/-! ## Temporal smoother (`apply_audio_smoothing`, muchfun.py lines 759-833)

The method reads `self.smoothing_type`, `self.smoothing_strength`,
`self.attack_time`, `self.decay_time` and mutates `self._audio_velocity`
(momentum mode only).  Here those are parameters, and the result is the
pair (returned intensity, new velocity). -/

def apply_audio_smoothing (smoothing_type : String)
    (smoothing_strength attack_time decay_time : ℚ)
    (audio_velocity : ℚ)
    (current_intensity target_intensity delta_time : ℚ) : ℚ × ℚ :=
  let cutoff_threshold : ℚ := 1/100
  if smoothing_type = "none" then
    (target_intensity, audio_velocity)
  else if smoothing_type = "simple" then
    let smooth_factor := smoothing_strength
    let result := smooth_factor * current_intensity +
      (1 - smooth_factor) * target_intensity
    if result < cutoff_threshold then (0, audio_velocity)
    else (result, audio_velocity)
  else if smoothing_type = "adaptive" then
    let result :=
      if current_intensity < target_intensity then
        let attack_factor := min 1 (delta_time / max (1/100) attack_time)
        current_intensity + (target_intensity - current_intensity) * attack_factor
      else if target_intensity = 0 then
        let decay_rate := 3 / max (1/100) decay_time
        let decay_factor := 1 - min (99/100) (delta_time * decay_rate)
        current_intensity * decay_factor
      else
        let decay_factor := min 1 (delta_time / max (1/100) decay_time)
        current_intensity + (target_intensity - current_intensity) * decay_factor
    if result < cutoff_threshold then (0, audio_velocity)
    else (max 0 (min 1 result), audio_velocity)
  else if smoothing_type = "momentum" then
    let desired_change := target_intensity - current_intensity
    let momentum_factor : ℚ := 3/10
    let damping_factor : ℚ := 6/10
    let responsiveness : ℚ := 2
    let v1 := momentum_factor * audio_velocity +
      (1 - momentum_factor) * desired_change * responsiveness
    let damping_multiplier : ℚ := if target_intensity = 0 then 3 else 1
    let v2 := v1 * (1 - damping_factor * damping_multiplier * delta_time)
    let new_intensity := current_intensity + v2 * delta_time
    if new_intensity < cutoff_threshold ∨ target_intensity = 0 then (0, 0)
    else (max 0 (min 1 new_intensity), v2)
  else
    (target_intensity, audio_velocity)

/-! ## Audio worker target and cap (muchfun.py lines 1190-1208)

The worker computes `target_intensity = frequency_mix * sensitivity/100`,
zeroes it below the noise floor 0.02, smooths it, and stores
`min(0.8, smoothed)` as `self.audio_intensity`. -/

def audio_target (frequency_mix sensitivity : ℚ) : ℚ :=
  let target := frequency_mix * (sensitivity / 100)
  if target < 2/100 then 0 else target

def audio_tick_intensity (smoothing_type : String)
    (smoothing_strength attack_time decay_time : ℚ)
    (audio_velocity : ℚ)
    (smoothed_intensity frequency_mix sensitivity delta_time : ℚ) : ℚ :=
  min (8/10)
    (apply_audio_smoothing smoothing_type smoothing_strength attack_time
      decay_time audio_velocity smoothed_intensity
      (audio_target frequency_mix sensitivity) delta_time).1

/-! ## Frequency mix (`calculate_frequency_mix`, muchfun.py lines 728-740) -/

def calculate_frequency_mix (bass mids treble focus_value : ℚ) : ℚ :=
  if focus_value ≤ 0 then
    let blend_factor := (focus_value + 1) / 2
    bass * (1 - blend_factor) + mids * blend_factor
  else
    let blend_factor := focus_value
    mids * (1 - blend_factor) + treble * blend_factor

/-! ## Arbitration on the three emitting paths

`update_device_from_pattern` (lines 1136-1151) sends
`max(pattern_current_intensity, audio_intensity, intensity/100)`;
`update_device_from_audio` (lines 1265-1278) sends
`max(audio_intensity, intensity/100)`;
`manual_intensity_changed` (lines 1280-1292) sends `value/100` and only
when neither the audio nor the pattern channel is enabled. -/

def update_device_from_pattern_combined
    (pattern_current_intensity audio_intensity intensity_slider : ℚ) : ℚ :=
  max pattern_current_intensity (max audio_intensity (intensity_slider / 100))

def update_device_from_audio_combined
    (audio_intensity intensity_slider : ℚ) : ℚ :=
  max audio_intensity (intensity_slider / 100)

def manual_intensity_changed_sends (value : ℚ)
    (device connected audio_enabled pattern_enabled : Bool) : Option ℚ :=
  if device && connected && !audio_enabled && !pattern_enabled then
    some (value / 100)
  else none

/-- The arbiter as the spec words it: the maximum of the audio smoothed
intensity, the current pattern intensity, and the manual intensity. -/
def arbiter_spec (patternCurrent audioSmoothed manual : ℚ) : ℚ :=
  max patternCurrent (max audioSmoothed manual)

/-! ## Adaptive smoothing, as the spec claims it and as amended

`adaptive_claimed` transcribes the spec sentence: rising targets use
`min(1, Δt/attackTime)`; falling-to-zero targets decay by
`current × (1 − min(0.95, Δt/decayTime))`; falling-to-nonzero targets
move by `Δt/decayTime`; result forced to 0 below the cutoff, else
clamped to [0,1].  `adaptive_amended` is what the code computes. -/

def adaptive_claimed (cur target dt attack decay : ℚ) : ℚ :=
  let result :=
    if cur < target then cur + (target - cur) * min 1 (dt / attack)
    else if target = 0 then cur * (1 - min (95/100) (dt / decay))
    else cur + (target - cur) * (dt / decay)
  if result < 1/100 then 0 else max 0 (min 1 result)

def adaptive_amended (cur target dt attack decay : ℚ) : ℚ :=
  let result :=
    if cur < target then cur + (target - cur) * min 1 (dt / max (1/100) attack)
    else if target = 0 then
      cur * (1 - min (99/100) (dt * (3 / max (1/100) decay)))
    else cur + (target - cur) * min 1 (dt / max (1/100) decay)
  if result < 1/100 then 0 else max 0 (min 1 result)

/-! ## Rate-limited dispatch (audio_worker lines 1237-1254,
pattern_worker lines 1111-1125)

Each worker keeps its own `last_send_time` (and the audio worker also
`self._last_sent_intensity`).  A tick supplies the wall clock `now`, the
channel's current intensity, and the `device`/`enabled` flags the gating
condition reads.  `..._send_times` runs a worker over a list of ticks
and returns the times at which it dispatched a command. -/

structure AudioDispatchState where
  last_send_time : ℚ
  last_sent_intensity : ℚ

structure DispatchTick where
  now : ℚ
  intensity : ℚ
  device : Bool
  enabled : Bool

def audio_should_send (send_interval : ℚ) (st : AudioDispatchState)
    (e : DispatchTick) : Bool :=
  e.device && e.enabled &&
    decide (send_interval ≤ e.now - st.last_send_time) &&
    (decide (0 < e.intensity) || decide (0 < st.last_sent_intensity))

def audio_dispatch_step (send_interval : ℚ) (st : AudioDispatchState)
    (e : DispatchTick) : AudioDispatchState × Bool :=
  if audio_should_send send_interval st e then (⟨e.now, e.intensity⟩, true)
  else (st, false)

def audio_send_times (send_interval : ℚ) :
    AudioDispatchState → List DispatchTick → List ℚ
  | _, [] => []
  | st, e :: es =>
    let step := audio_dispatch_step send_interval st e
    if step.2 then e.now :: audio_send_times send_interval step.1 es
    else audio_send_times send_interval step.1 es

def pattern_should_send (send_interval last_send_time : ℚ)
    (e : DispatchTick) : Bool :=
  e.device && e.enabled && decide (send_interval ≤ e.now - last_send_time)

def pattern_send_times (send_interval : ℚ) : ℚ → List DispatchTick → List ℚ
  | _, [] => []
  | last, e :: es =>
    if pattern_should_send send_interval last e then
      e.now :: pattern_send_times send_interval e.now es
    else pattern_send_times send_interval last es

/-! ## Pattern generator (`generate_pattern_value`, muchfun.py lines 1026-1069)

Python's float `%` returns a result with the divisor's sign:
`a % b = a - b*⌊a/b⌋`, modelled by `pymod`. -/

noncomputable def pymod (a b : ℝ) : ℝ := a - b * ⌊a / b⌋

noncomputable def generate_pattern_value (time_val : ℝ) (pattern_type : String)
    (rate_factor : ℝ) : ℝ :=
  let adjusted_time := time_val * rate_factor
  if pattern_type = "wave" then
    (Real.sin adjusted_time + 1) / 2
  else if pattern_type = "pulse" then
    let cycle := pymod adjusted_time (2 * Real.pi)
    if cycle < Real.pi then 1 else 0
  else if pattern_type = "ramp" then
    let cycle := pymod adjusted_time (2 * Real.pi)
    cycle / (2 * Real.pi)
  else if pattern_type = "steady" then
    0.7 + 0.1 * Real.sin (adjusted_time * 0.5)
  else if pattern_type = "chaos" then
    (Real.sin adjusted_time * Real.cos (adjusted_time * 1.618) + 1) / 2
  else if pattern_type = "heartbeat" then
    let cycle := pymod adjusted_time (2 * Real.pi)
    if cycle < 0.3 then Real.sin (cycle * 10) ^ 2
    else if cycle < 0.8 then Real.sin ((cycle - 0.3) * 12) ^ 2
    else 0
  else
    0.5

/-! ## Pattern worker tick (muchfun.py lines 1084-1098)

`max_intensity`, `rate_factor`, `randomness` are the slider values already
divided by 100; `rand01` stands for the `random.random()` draw. -/

noncomputable def pattern_tick_intensity (t : ℝ) (ptype : String)
    (max_intensity rate_factor randomness rand01 : ℝ) : ℝ :=
  let base_value := generate_pattern_value t ptype rate_factor
  let base_value :=
    if 0 < randomness then
      let random_offset := (rand01 - 0.5) * 2 * randomness * 0.3
      max 0 (min 1 (base_value + random_offset))
    else base_value
  base_value * max_intensity

/-! ## Spectral analyzer (`analyze_frequency_bands`, muchfun.py lines 639-710)

`np.fft.rfft` is the discrete Fourier transform restricted to the first
`n/2 + 1` bins; `np.fft.rfftfreq(n, 1/sample_rate)` gives bin `k` the
frequency `k*sample_rate/n`.  `np.percentile(xs, q)` sorts and linearly
interpolates at fractional rank `q/100*(len-1)`.  The source's local
variables become the named definitions below; the boolean band masks
become masked sums over bin indices. -/

noncomputable def rfft (x : List ℝ) : List ℂ :=
  let n := x.length
  (List.range (n / 2 + 1)).map (fun k =>
    ((List.range n).map (fun j =>
      (x.getD j 0 : ℂ) *
        Complex.exp (-2 * Real.pi * Complex.I * k * j / n))).sum)

noncomputable def fft_magnitudes (x : List ℝ) : List ℝ :=
  (rfft x).map Complex.abs

noncomputable def audio_rms (x : List ℝ) : ℝ :=
  Real.sqrt ((x.map (fun s => s ^ 2)).sum / x.length)

noncomputable def percentile (q : ℝ) (xs : List ℝ) : ℝ :=
  let s := xs.mergeSort (fun a b => decide (a ≤ b))
  let pos := q / 100 * ((xs.length : ℝ) - 1)
  let i := (⌊pos⌋).toNat
  let lo := s.getD i 0
  let hi := s.getD (i + 1) lo
  lo + (pos - ⌊pos⌋) * (hi - lo)

/-- The noise gate of step 3: subtract the 60th-percentile noise floor
from magnitudes exceeding three times it, zero the rest. -/
noncomputable def gated_magnitudes (x : List ℝ) : List ℝ :=
  let noise_floor := percentile 60 (fft_magnitudes x)
  let signal_threshold := noise_floor * 3
  (fft_magnitudes x).map (fun m =>
    if signal_threshold < m then m - noise_floor else 0)

/-- `np.sum(magnitudes[mask])` for the mask `lo ≤ freqs ∧ freqs ≤ hi`,
with `np.any(mask) = false` folded in (an empty mask sums to 0). -/
noncomputable def band_energy (x : List ℝ) (sample_rate lo hi : ℝ) : ℝ :=
  ((List.range (gated_magnitudes x).length).map (fun (k : ℕ) =>
    if lo ≤ (k : ℝ) * sample_rate / x.length ∧
        (k : ℝ) * sample_rate / x.length ≤ hi then
      (gated_magnitudes x).getD k 0
    else 0)).sum

noncomputable def bass_energy (x : List ℝ) (sample_rate : ℝ) : ℝ :=
  band_energy x sample_rate 20 250

noncomputable def mids_energy (x : List ℝ) (sample_rate : ℝ) : ℝ :=
  band_energy x sample_rate 250 4000

noncomputable def treble_energy (x : List ℝ) (sample_rate : ℝ) : ℝ :=
  band_energy x sample_rate 4000 20000

noncomputable def total_energy (x : List ℝ) (sample_rate : ℝ) : ℝ :=
  bass_energy x sample_rate + mids_energy x sample_rate +
    treble_energy x sample_rate

/-- Lines 691-708: 64-bin visualization of the gated magnitude array.
`np.logspace(0, log10 m, 65).astype(int)` is bin edge
`⌊m ^ (i/64)⌋` (the points are `10 ^ (log10 m · i/64)`, all ≥ 1, so
`astype(int)` truncation is the floor). -/
noncomputable def visualizer_of (mags : List ℝ) : List ℝ :=
  let m := mags.length
  let raw :=
    if 64 < m then
      let edge := fun (i : ℕ) => (⌊(m : ℝ) ^ ((i : ℝ) / 64)⌋).toNat
      (List.range 64).map (fun i =>
        let start_bin := edge i
        let end_bin := min (edge (i + 1)) m
        if start_bin < end_bin then
          ((mags.drop start_bin).take (end_bin - start_bin)).sum /
            ((end_bin - start_bin : ℕ) : ℝ)
        else 0)
    else (mags ++ List.replicate (64 - m) 0).take 64
  let max_viz := raw.foldr max 0
  if 0 < max_viz then
    (raw.map (fun v => v / max_viz)).map (fun v => if v < 15/100 then 0 else v)
  else raw

noncomputable def analyze_frequency_bands (audio_data : List ℝ)
    (sample_rate : ℝ) : ℝ × ℝ × ℝ × List ℝ :=
  let rms_threshold : ℝ := 5/1000
  if audio_rms audio_data < rms_threshold then
    (0, 0, 0, List.replicate 64 0)
  else if (gated_magnitudes audio_data).sum < 1 then
    (0, 0, 0, List.replicate 64 0)
  else if total_energy audio_data sample_rate < 15 then
    (0, 0, 0, List.replicate 64 0)
  else
    (bass_energy audio_data sample_rate / total_energy audio_data sample_rate,
     mids_energy audio_data sample_rate / total_energy audio_data sample_rate,
     treble_energy audio_data sample_rate / total_energy audio_data sample_rate,
     visualizer_of (gated_magnitudes audio_data))

/-! ## Helper lemmas -/

theorem audio_target_nonneg (frequency_mix sensitivity : ℚ) :
    0 ≤ audio_target frequency_mix sensitivity := by
  simp only [audio_target]
  split_ifs with h
  · exact le_refl 0
  · linarith [not_lt.mp h]

theorem apply_audio_smoothing_fst_nonneg (ty : String)
    (s a d vel cur target dt : ℚ) (ht : 0 ≤ target) :
    0 ≤ (apply_audio_smoothing ty s a d vel cur target dt).1 := by
  simp only [apply_audio_smoothing]
  split_ifs <;> dsimp only <;>
    first
      | exact ht
      | exact le_refl 0
      | exact le_max_left 0 _
      | (rename_i hlt; linarith [not_lt.mp hlt])

/-! ## Claims -/

/-- C8: with band energies bass=0.6, mids=0.3, treble=0.1 the frequency
mix is 0.6 (pure bass) at focus = −1 and 0.1 (pure treble) at focus = 1;
in general the mix at focus −1 equals the bass energy and at focus 1 the
treble energy. -/
theorem C8_frequency_mix_extremes :
    (∀ bass mids treble : ℚ,
      calculate_frequency_mix bass mids treble (-1) = bass ∧
      calculate_frequency_mix bass mids treble 1 = treble) ∧
    calculate_frequency_mix (6/10) (3/10) (1/10) (-1) = 6/10 ∧
    calculate_frequency_mix (6/10) (3/10) (1/10) 1 = 1/10 := by
  refine ⟨fun bass mids treble => ⟨?_, ?_⟩, ?_, ?_⟩ <;>
    norm_num [calculate_frequency_mix]

/-- C10: in momentum mode a zero target forces the returned intensity to
0 and resets the velocity state to 0, for every velocity, current value
and Δt (even when the computed new intensity would exceed the cutoff). -/
theorem C10_momentum_zero_target_resets (s a d vel cur dt : ℚ) :
    apply_audio_smoothing "momentum" s a d vel cur 0 dt = (0, 0) := by
  simp [apply_audio_smoothing]

/-- C1 fails on the audio-driven dispatch path: with the pattern channel
at 0.9, the audio channel at 0.1 and the manual slider at 0 (several
channels active), `update_device_from_audio` sends max(audio, manual) =
0.1, not the three-channel maximum 0.9. -/
theorem C1_counterexample :
    update_device_from_audio_combined (1/10) 0 = 1/10 ∧
    arbiter_spec (9/10) (1/10) (0/100) = 9/10 ∧
    update_device_from_audio_combined (1/10) 0 ≠
      arbiter_spec (9/10) (1/10) (0/100) := by
  refine ⟨?_, ?_, ?_⟩ <;>
    norm_num [update_device_from_audio_combined, arbiter_spec]

/-- C1 amended: the pattern-driven dispatch sends the three-channel
maximum; the audio-driven dispatch sends only max(audio, manual),
agreeing with the three-channel arbiter exactly when the pattern
intensity does not exceed that maximum; the manual path (which only
fires with audio and pattern disabled) sends the slider value / 100. -/
theorem C1_arbitration_per_path (p a s v : ℚ) (device connected : Bool) :
    update_device_from_pattern_combined p a s = arbiter_spec p a (s / 100) ∧
    update_device_from_audio_combined a s = max a (s / 100) ∧
    (update_device_from_audio_combined a s = arbiter_spec p a (s / 100) ↔
      p ≤ max a (s / 100)) ∧
    manual_intensity_changed_sends v device connected false false =
      (if device && connected then some (v / 100) else none) := by
  refine ⟨rfl, rfl, ?_, ?_⟩
  · rw [update_device_from_audio_combined, arbiter_spec, eq_comm]
    exact max_eq_right_iff
  · cases device <;> cases connected <;>
      simp [manual_intensity_changed_sends]

theorem C1_arbitration_per_path_witness :
    update_device_from_audio_combined (1/4) 0 =
      arbiter_spec (1/10) (1/4) (0 / 100) :=
  ((C1_arbitration_per_path (1/10) (1/4) 0 0 true true).2.2.1).mpr
    (by norm_num)

/-- C3 fails as stated: at current = 0.5, target = 0, Δt = 0.1,
decayTime = 1, the code's adaptive step yields 0.35 (decay factor
`1 − min(0.99, 3Δt/decayTime)` = 0.7) while the claimed formula
`current × (1 − min(0.95, Δt/decayTime))` yields 0.45. -/
theorem C3_counterexample :
    (apply_audio_smoothing "adaptive" (3/10) (1/20) 1 0 (1/2) 0 (1/10)).1
      = 7/20 ∧
    adaptive_claimed (1/2) 0 (1/10) (1/20) 1 = 9/20 ∧
    (apply_audio_smoothing "adaptive" (3/10) (1/20) 1 0 (1/2) 0 (1/10)).1 ≠
      adaptive_claimed (1/2) 0 (1/10) (1/20) 1 := by
  have h1 : ("adaptive" : String) ≠ "none" := by decide
  have h2 : ("adaptive" : String) ≠ "simple" := by decide
  refine ⟨?_, ?_, ?_⟩ <;>
    norm_num [apply_audio_smoothing, adaptive_claimed, h1, h2, min_def,
      max_def]

/-- C3 amended: the adaptive step equals `adaptive_amended`: rising
targets move by `min(1, Δt/max(0.01, attackTime))`; a zero target decays
by the factor `1 − min(0.99, Δt·3/max(0.01, decayTime))`; a nonzero
falling target moves by `min(1, Δt/max(0.01, decayTime))`; the result is
forced to 0 below the 0.01 cutoff and otherwise clamped to [0,1]; the
velocity state is untouched. -/
theorem C3_adaptive_formula (s attack decay vel cur target dt : ℚ) :
    apply_audio_smoothing "adaptive" s attack decay vel cur target dt =
      (adaptive_amended cur target dt attack decay, vel) := by
  have h1 : ("adaptive" : String) ≠ "none" := by decide
  have h2 : ("adaptive" : String) ≠ "simple" := by decide
  simp only [apply_audio_smoothing, adaptive_amended, h1, h2, if_false,
    eq_self_iff_true, if_true]
  split_ifs <;> rfl

/-- C2: on the audio path the stored intensity
`min(0.8, apply_audio_smoothing(...))` lies in [0, 0.8] for every
smoothing mode, every current value, every producible target (the worker
zeroes the frequency-mix target below its noise floor, so it is never
negative) and every Δt. -/
theorem C2_audio_intensity_bounded (ty : String)
    (s a d vel cur mix sens dt : ℚ) :
    0 ≤ audio_tick_intensity ty s a d vel cur mix sens dt ∧
    audio_tick_intensity ty s a d vel cur mix sens dt ≤ 8/10 := by
  constructor
  · exact le_min (by norm_num)
      (apply_audio_smoothing_fst_nonneg ty s a d vel cur _ dt
        (audio_target_nonneg mix sens))
  · exact min_le_left _ _

/-! Dispatch-trace helpers for C4. -/

theorem audio_send_times_chain (send_interval : ℚ) (es : List DispatchTick) :
    ∀ st : AudioDispatchState,
      List.Chain (fun t1 t2 => send_interval ≤ t2 - t1) st.last_send_time
        (audio_send_times send_interval st es) := by
  induction es with
  | nil => intro st; exact List.Chain.nil
  | cons e es ih =>
    intro st
    by_cases h : audio_should_send send_interval st e = true
    · have hgap : send_interval ≤ e.now - st.last_send_time := by
        simp only [audio_should_send, Bool.and_eq_true, Bool.or_eq_true,
          decide_eq_true_eq] at h
        exact h.1.2
      have hrest := ih ⟨e.now, e.intensity⟩
      simp only [audio_send_times, audio_dispatch_step, h, if_true]
      exact List.Chain.cons hgap hrest
    · have h' : audio_should_send send_interval st e = false :=
        Bool.not_eq_true _ ▸ Bool.of_not_eq_true h
      simp only [audio_send_times, audio_dispatch_step, h', Bool.false_eq_true,
        if_false]
      exact ih st

theorem pattern_send_times_chain (send_interval : ℚ) (es : List DispatchTick) :
    ∀ last : ℚ,
      List.Chain (fun t1 t2 => send_interval ≤ t2 - t1) last
        (pattern_send_times send_interval last es) := by
  induction es with
  | nil => intro last; exact List.Chain.nil
  | cons e es ih =>
    intro last
    by_cases h : pattern_should_send send_interval last e = true
    · have hgap : send_interval ≤ e.now - last := by
        simp only [pattern_should_send, Bool.and_eq_true,
          decide_eq_true_eq] at h
        exact h.2
      simp only [pattern_send_times, h, if_true]
      exact List.Chain.cons hgap (ih e.now)
    · have h' : pattern_should_send send_interval last e = false :=
        Bool.not_eq_true _ ▸ Bool.of_not_eq_true h
      simp only [pattern_send_times, h', Bool.false_eq_true, if_false]
      exact ih last

/-- C4: along any run of the audio worker's dispatch gate and any run of
the pattern worker's dispatch gate, consecutive command times are at
least the configured interval (1/update_rate) apart; and at a tick where
the interval has elapsed (device present, channel enabled), a command is
always issued when the intensity is nonzero or the last sent intensity
was nonzero — a zero/nonzero transition is never silently dropped, only
a redundant zero after a sent zero is skipped. -/
theorem C4_rate_limit_and_transition (send_interval : ℚ) :
    (∀ (st : AudioDispatchState) (es : List DispatchTick),
      List.Chain' (fun t1 t2 => send_interval ≤ t2 - t1)
        (audio_send_times send_interval st es)) ∧
    (∀ (last : ℚ) (es : List DispatchTick),
      List.Chain' (fun t1 t2 => send_interval ≤ t2 - t1)
        (pattern_send_times send_interval last es)) ∧
    (0 ≤ send_interval →
      (∀ (st : AudioDispatchState) (es : List DispatchTick),
        List.Pairwise (fun t1 t2 => send_interval ≤ t2 - t1)
          (audio_send_times send_interval st es)) ∧
      (∀ (last : ℚ) (es : List DispatchTick),
        List.Pairwise (fun t1 t2 => send_interval ≤ t2 - t1)
          (pattern_send_times send_interval last es))) ∧
    (∀ (st : AudioDispatchState) (e : DispatchTick),
      e.device = true → e.enabled = true →
      send_interval ≤ e.now - st.last_send_time →
      (0 < e.intensity ∨ 0 < st.last_sent_intensity) →
      audio_should_send send_interval st e = true) ∧
    (∀ (last : ℚ) (e : DispatchTick),
      e.device = true → e.enabled = true →
      send_interval ≤ e.now - last →
      pattern_should_send send_interval last e = true) := by
  have hAchain : ∀ (st : AudioDispatchState) (es : List DispatchTick),
      List.Chain' (fun t1 t2 => send_interval ≤ t2 - t1)
        (audio_send_times send_interval st es) := fun st es =>
    List.Chain'.tail
      (show List.Chain' _
          (st.last_send_time :: audio_send_times send_interval st es) from
        audio_send_times_chain send_interval es st)
  have hPchain : ∀ (last : ℚ) (es : List DispatchTick),
      List.Chain' (fun t1 t2 => send_interval ≤ t2 - t1)
        (pattern_send_times send_interval last es) := fun last es =>
    List.Chain'.tail
      (show List.Chain' _
          (last :: pattern_send_times send_interval last es) from
        pattern_send_times_chain send_interval es last)
  refine ⟨hAchain, hPchain, fun hnn => ?_, fun st e hd he hgap hnz => ?_,
    fun last e hd he hgap => ?_⟩
  · haveI : IsTrans ℚ (fun t1 t2 => send_interval ≤ t2 - t1) :=
      ⟨fun a b c hab hbc => by
        have h1 : send_interval ≤ b - a := hab
        have h2 : send_interval ≤ c - b := hbc
        show send_interval ≤ c - a
        linarith⟩
    exact ⟨fun st es => List.chain'_iff_pairwise.mp (hAchain st es),
      fun last es => List.chain'_iff_pairwise.mp (hPchain last es)⟩
  · simp only [audio_should_send, Bool.and_eq_true, Bool.or_eq_true,
      decide_eq_true_eq]
    exact ⟨⟨⟨hd, he⟩, hgap⟩, hnz⟩
  · simp only [pattern_should_send, Bool.and_eq_true, decide_eq_true_eq]
    exact ⟨⟨hd, he⟩, hgap⟩

theorem C4_rate_limit_and_transition_witness :
    audio_should_send (1/5) ⟨0, 1/2⟩ ⟨3/10, 0, true, true⟩ = true ∧
    pattern_should_send (1/5) 0 ⟨3/10, 1/2, true, true⟩ = true ∧
    List.Chain' (fun t1 t2 => (1/5 : ℚ) ≤ t2 - t1)
      (audio_send_times (1/5) ⟨0, 1/2⟩
        [⟨3/10, 0, true, true⟩, ⟨7/20, 1/2, true, true⟩]) ∧
    List.Pairwise (fun t1 t2 => (1/5 : ℚ) ≤ t2 - t1)
      (pattern_send_times (1/5) 0 [⟨3/10, 1/2, true, true⟩]) := by
  obtain ⟨h1, _, hpair, h3, h4⟩ := C4_rate_limit_and_transition (1/5)
  exact ⟨h3 ⟨0, 1/2⟩ ⟨3/10, 0, true, true⟩ rfl rfl (by norm_num)
      (Or.inr (by norm_num)),
    h4 0 ⟨3/10, 1/2, true, true⟩ rfl rfl (by norm_num),
    h1 ⟨0, 1/2⟩ _,
    (hpair (by norm_num)).2 0 _⟩

/-- C7: the "wave" pattern value is `(sin(t·r)+1)/2`, periodic in `t`
with period `2π/r` for rate factor `r > 0`, and the pattern-worker tick
intensity (randomness 0) after scaling lies in `[0, maxIntensity]`. -/
theorem C7_wave_periodic_bounded (t r maxI : ℝ) (hr : 0 < r)
    (hI : 0 ≤ maxI) :
    generate_pattern_value t "wave" r = (Real.sin (t * r) + 1) / 2 ∧
    generate_pattern_value (t + 2 * Real.pi / r) "wave" r =
      generate_pattern_value t "wave" r ∧
    0 ≤ pattern_tick_intensity t "wave" maxI r 0 0 ∧
    pattern_tick_intensity t "wave" maxI r 0 0 ≤ maxI := by
  have hwave : ∀ u : ℝ, generate_pattern_value u "wave" r =
      (Real.sin (u * r) + 1) / 2 := by
    intro u
    simp [generate_pattern_value]
  have harg : (t + 2 * Real.pi / r) * r = t * r + 2 * Real.pi := by
    field_simp
  have hbase_lo : 0 ≤ (Real.sin (t * r) + 1) / 2 := by
    have := Real.neg_one_le_sin (t * r)
    linarith
  have hbase_hi : (Real.sin (t * r) + 1) / 2 ≤ 1 := by
    have := Real.sin_le_one (t * r)
    linarith
  refine ⟨hwave t, ?_, ?_, ?_⟩
  · rw [hwave, hwave, harg, Real.sin_add_two_pi]
  · simp only [pattern_tick_intensity, lt_irrefl, if_false, hwave t]
    exact mul_nonneg hbase_lo hI
  · simp only [pattern_tick_intensity, lt_irrefl, if_false, hwave t]
    exact mul_le_of_le_one_left hI hbase_hi

theorem C7_wave_periodic_bounded_witness :
    (0 : ℝ) < 1 ∧ (0 : ℝ) ≤ 1 ∧
    (generate_pattern_value 0 "wave" 1 = (Real.sin (0 * 1) + 1) / 2 ∧
      generate_pattern_value (0 + 2 * Real.pi / 1) "wave" 1 =
        generate_pattern_value 0 "wave" 1 ∧
      0 ≤ pattern_tick_intensity 0 "wave" 1 1 0 0 ∧
      pattern_tick_intensity 0 "wave" 1 1 0 0 ≤ 1) :=
  ⟨by norm_num, by norm_num,
    C7_wave_periodic_bounded 0 1 1 (by norm_num) (by norm_num)⟩

/-- C9: a waveform type other than the six recognized ones makes
`generate_pattern_value` return the default 0.5 for every elapsed time
and rate factor. -/
theorem C9_unknown_type_default (t r : ℝ) (s : String)
    (h : s ∉ ["wave", "pulse", "ramp", "steady", "chaos", "heartbeat"]) :
    generate_pattern_value t s r = 0.5 := by
  simp only [List.mem_cons, List.not_mem_nil, or_false, not_or] at h
  obtain ⟨h1, h2, h3, h4, h5, h6⟩ := h
  simp [generate_pattern_value, h1, h2, h3, h4, h5, h6]

theorem C9_unknown_type_default_witness :
    "lightning" ∉ ["wave", "pulse", "ramp", "steady", "chaos", "heartbeat"] ∧
    generate_pattern_value 0 "lightning" 1 = 0.5 :=
  ⟨by decide, C9_unknown_type_default 0 1 "lightning" (by decide)⟩

/-! Analyzer helpers for C5 / C6. -/

theorem fft_magnitudes_nonneg (x : List ℝ) :
    ∀ m ∈ fft_magnitudes x, 0 ≤ m := by
  intro m hm
  simp only [fft_magnitudes, List.mem_map] at hm
  obtain ⟨z, _, rfl⟩ := hm
  exact Complex.abs.nonneg z

theorem gated_magnitudes_nonneg (x : List ℝ) :
    ∀ m ∈ gated_magnitudes x, 0 ≤ m := by
  intro m hm
  simp only [gated_magnitudes, List.mem_map] at hm
  obtain ⟨m0, hm0, rfl⟩ := hm
  have h0 : 0 ≤ m0 := fft_magnitudes_nonneg x m0 hm0
  rcases le_or_lt 0 (percentile 60 (fft_magnitudes x)) with hf | hf
  · split_ifs with hgt
    · linarith
    · exact le_refl 0
  · split_ifs with hgt
    · linarith
    · exact le_refl 0

theorem list_getD_zero_nonneg :
    ∀ (l : List ℝ) (k : ℕ), (∀ m ∈ l, 0 ≤ m) → 0 ≤ l.getD k 0
  | [], k, _ => by simp [List.getD]
  | a :: l, 0, h => by simpa using h a (by simp)
  | a :: l, k + 1, h => by
    simpa [List.getD] using
      list_getD_zero_nonneg l k (fun m hm => h m (by simp [hm]))

theorem band_energy_nonneg (x : List ℝ) (sr lo hi : ℝ) :
    0 ≤ band_energy x sr lo hi := by
  unfold band_energy
  apply List.sum_nonneg
  intro v hv
  simp only [List.mem_map, List.mem_range] at hv
  obtain ⟨k, _, rfl⟩ := hv
  split_ifs
  · exact list_getD_zero_nonneg _ k (gated_magnitudes_nonneg x)
  · exact le_refl 0

/-- C5: a frame whose RMS is below the 0.005 silence threshold makes the
analyzer return band energies (0,0,0) and the all-zero 64-bin spectrum
(the first early exit; none of the later stages affect the result). -/
theorem C5_silence_early_exit (x : List ℝ) (sr : ℝ)
    (h : audio_rms x < 5/1000) :
    analyze_frequency_bands x sr = (0, 0, 0, List.replicate 64 0) := by
  simp only [analyze_frequency_bands]
  rw [if_pos h]

theorem C5_silence_early_exit_witness :
    audio_rms [0, 0, 0, 0] < 5/1000 ∧
    analyze_frequency_bands [0, 0, 0, 0] 44100 =
      (0, 0, 0, List.replicate 64 0) := by
  have h : audio_rms [0, 0, 0, 0] < 5/1000 := by
    have : audio_rms [0, 0, 0, 0] = 0 := by
      simp [audio_rms]
    rw [this]
    norm_num
  exact ⟨h, C5_silence_early_exit [0, 0, 0, 0] 44100 h⟩

/-- C6: for every frame the three returned band energies are nonnegative
and their sum is exactly 0 (all gated) or within 1e-6 of 1 (here exactly
1): they are never partially populated. -/
theorem C6_band_energies_normalized (x : List ℝ) (sr : ℝ) :
    0 ≤ (analyze_frequency_bands x sr).1 ∧
    0 ≤ (analyze_frequency_bands x sr).2.1 ∧
    0 ≤ (analyze_frequency_bands x sr).2.2.1 ∧
    ((analyze_frequency_bands x sr).1 + (analyze_frequency_bands x sr).2.1 +
        (analyze_frequency_bands x sr).2.2.1 = 0 ∨
      |(analyze_frequency_bands x sr).1 + (analyze_frequency_bands x sr).2.1 +
          (analyze_frequency_bands x sr).2.2.1 - 1| ≤ 1/1000000) := by
  simp only [analyze_frequency_bands]
  split_ifs with h1 h2 h3
  · norm_num
  · norm_num
  · norm_num
  · have hT : (15 : ℝ) ≤ total_energy x sr := not_lt.mp h3
    have hT0 : total_energy x sr ≠ 0 := by linarith
    have hb := band_energy_nonneg x sr 20 250
    have hm := band_energy_nonneg x sr 250 4000
    have ht := band_energy_nonneg x sr 4000 20000
    have hTnn : 0 ≤ total_energy x sr := by linarith
    refine ⟨div_nonneg hb hTnn, div_nonneg hm hTnn, div_nonneg ht hTnn,
      Or.inr ?_⟩
    have hsum : bass_energy x sr / total_energy x sr +
        mids_energy x sr / total_energy x sr +
        treble_energy x sr / total_energy x sr =
        (bass_energy x sr + mids_energy x sr + treble_energy x sr) /
          total_energy x sr := by
      ring
    rw [hsum, show bass_energy x sr + mids_energy x sr + treble_energy x sr =
        total_energy x sr from rfl, div_self hT0]
    norm_num
